import Mathlib

/-!
Shallow embedding of the porterman dynamic host-routed TLS reverse proxy:
the route resolver and proxy engine (src/proxy.ts), the ACME challenge
responder and certificate manager (src/certs.ts), and the server
orchestrator's request handler, provisioning dedup and startup sequencing
(src/server.ts), together with theorems settling the specification claims.

Strings are modelled on their character lists (`String.data`); JavaScript
`Map` objects are modelled as association lists with insertion-order
`set`/`get`/`delete` semantics; JavaScript truthiness of `string | null`
values (`null` and `""` are falsy) is modelled explicitly.
-/

namespace Porterman

/-! Section: JavaScript string and Map primitives -/

/-- A character of the regex class `\w` (ASCII letters, digits, underscore). -/
def wordChar (c : Char) : Bool := c.isAlphanum || c == '_'

/-- Numeric value of a run of decimal digit characters (the value
`parseInt` produces from its leading digit run). -/
def natOfDigits (l : List Char) : Nat :=
  l.foldl (fun n c => 10 * n + (c.toNat - 48)) 0

/-- JavaScript `host.split(":")[0]` — the part of the string before the first `':'`. -/
def stripPort (l : List Char) : List Char := l.takeWhile (fun c => !(c == ':'))

/-- JavaScript `hostname.split("-")[0]` — the part of the string before the first `'-'`. -/
def beforeDash (l : List Char) : List Char := l.takeWhile (fun c => !(c == '-'))

/-- Whether the second list is an initial segment of the first
(JavaScript `String.prototype.startsWith`). -/
def listStartsWith : List Char → List Char → Bool
  | _, [] => true
  | [], _ :: _ => false
  | a :: as, b :: bs => a == b && listStartsWith as bs

/-- JavaScript `Map.get` on an insertion-ordered association list: the
value stored under the key, if any. -/
def jsGet {α : Type} : List (String × α) → String → Option α
  | [], _ => none
  | p :: t, k => if p.1 = k then some p.2 else jsGet t k

/-- JavaScript `Map.set`: overwrite in place if the key exists, else append. -/
def jsSet {α : Type} (m : List (String × α)) (k : String) (v : α) :
    List (String × α) :=
  if m.any (fun p => decide (p.1 = k)) then
    m.map (fun p => if p.1 = k then (k, v) else p)
  else m ++ [(k, v)]

/-- JavaScript `Map.delete`. -/
def jsDelete {α : Type} (m : List (String × α)) (k : String) :
    List (String × α) :=
  m.filter (fun p => !(decide (p.1 = k)))

/-- JavaScript `Map.has`. -/
def jsHas {α : Type} (m : List (String × α)) (k : String) : Bool :=
  (jsGet m k).isSome

/-- JavaScript truthiness of a `string | null` value: `null` and the empty
string are falsy, every other string is truthy. -/
def jsTruthyStr : Option String → Bool
  | none => false
  | some s => !s.data.isEmpty

/-! Section: `parsePortFromHost` (src/utils.ts).

The source strips any `:port` suffix, matches the hostname against the
anchored regex `^(\w+)-\d+-` (written as a regex literal in the source),
and on a match applies `parseInt(match[1], 10)`, returning `null` when
there is no match or the parse yields `NaN`.

The anchored regex `^(\w+)-\d+-` matches exactly when the hostname starts
with a nonempty maximal run of word characters, followed by `'-'`, a
nonempty run of digits, and another `'-'` (no shorter match of `\w+` or
`\d+` can be followed by `'-'`, since `'-'` is neither a word character
nor a digit, so greedy matching never backtracks).  The captured group is
the leading word-character run; `parseInt(w, 10)` on a word-character
string yields the value of its leading digit run, or `NaN` (hence `null`)
when the string does not start with a digit. -/

def parsePortChars (host : List Char) : Option Nat :=
  let hostname := stripPort host
  let w := hostname.takeWhile wordChar
  if w.isEmpty then none
  else
    match hostname.drop w.length with
    | '-' :: rest1 =>
      let d := rest1.takeWhile Char.isDigit
      if d.isEmpty then none
      else
        match rest1.drop d.length with
        | '-' :: _ =>
          let digits := w.takeWhile Char.isDigit
          if digits.isEmpty then none else some (natOfDigits digits)
        | _ => none
    | _ => none

/-- Function `parsePortFromHost` from src/utils.ts. -/
def parsePortFromHost (host : String) : Option Nat := parsePortChars host.data

/-! Section: route table and resolver (src/proxy.ts `createProxyEngine`). -/

/-- Structure `ProxyRoute` from src/proxy.ts. -/
structure ProxyRoute where
  hostname : String
  targetPort : Nat
  name : Option String := none
  deriving DecidableEq

/-- Structure `ProxyOptions` from src/proxy.ts (the `timeout` field plays no role in
routing and is omitted; defaults as in the destructuring
`{ timeout, routes = [], nameMap, dynamic = false }`). -/
structure ProxyOptions where
  routes : List ProxyRoute := []
  nameMap : Option (List (String × Nat)) := none
  dynamic : Bool := false

/-- The `routeMap` built by `createProxyEngine`:
`for (const route of routes) routeMap.set(route.hostname, route.targetPort)`. -/
def buildRouteMap (routes : List ProxyRoute) : List (String × Nat) :=
  routes.foldl (fun m r => jsSet m r.hostname r.targetPort) []

/-- Function `resolveTargetPort` from src/proxy.ts, translated clause by clause:
direct hostname match in `routeMap`, then the name map consulted with the
part before the first `'-'`, then `parsePortFromHost` — accepted
unconditionally in dynamic mode, and in static mode only when some
configured route has that `targetPort`. -/
def resolveTargetPort (o : ProxyOptions) (host : String) : Option Nat :=
  let hostname : String := ⟨stripPort host.data⟩
  match jsGet (buildRouteMap o.routes) hostname with
  | some p => some p
  | none =>
    let viaName : Option Nat :=
      match o.nameMap with
      | some nm => jsGet nm ⟨beforeDash hostname.data⟩
      | none => none
    match viaName with
    | some p => some p
    | none =>
      match parsePortFromHost host with
      | some port =>
        if o.dynamic then some port
        else
          match o.routes.find? (fun r => r.targetPort == port) with
          | some _ => some port
          | none => none
      | none => none

/-- The resolution order as the specification words it (spec §4.1), for
comparison with `resolveTargetPort`: (1) strip any `:port` suffix,
(2) exact match against the static route map, (3) if an alias map is
configured, look up the substring before the first `'-'`, (4) parse a
leading numeric token from the hostname — in dynamic mode accept it
unconditionally, otherwise only if that exact value appears as a
`targetPort` among the configured routes — (5) otherwise no match. -/
def specResolutionOrder (o : ProxyOptions) (hostHeader : String) : Option Nat :=
  let hostname : String := ⟨stripPort hostHeader.data⟩
  let staticMatch := jsGet (buildRouteMap o.routes) hostname
  let aliasMatch : Option Nat :=
    match o.nameMap with
    | some nm => jsGet nm ⟨beforeDash hostname.data⟩
    | none => none
  let tokenMatch : Option Nat :=
    match parsePortFromHost hostname with
    | some tok =>
      if o.dynamic then some tok
      else if o.routes.any (fun r => r.targetPort == tok) then some tok
      else none
    | none => none
  (staticMatch.orElse fun _ => aliasMatch.orElse fun _ => tokenMatch)

/-! Section: proxy engine request handling (src/proxy.ts). -/

/-- What `handleRequest` in src/proxy.ts does with a request: respond 400
(missing host), respond 404 (no route), or call
`proxy.web(req, res, \x7b target: http://127.0.0.1:port \x7d)`. -/
inductive RequestOutcome where
  | badRequest
  | notFound
  | forwardTo (port : Nat)
  deriving DecidableEq

/-- Function `handleRequest` from src/proxy.ts: `req.headers.host` is
`string | undefined` and the guard is the JavaScript truthiness test
`if (!host)`, so an absent and an empty `Host` header both take the 400
branch; otherwise `resolveTargetPort(host)` decides between 404 and
forwarding.  The source's boolean return value is `true` exactly on the
`forwardTo` outcome. -/
def handleRequest (o : ProxyOptions) (host : Option String) : RequestOutcome :=
  if !jsTruthyStr host then .badRequest
  else
    match resolveTargetPort o (host.getD "") with
    | none => .notFound
    | some port => .forwardTo port

/-- Function `close` in src/proxy.ts calls `proxy.close()` on the `http-proxy`
server object.  `http-proxy`'s `close` shuts the proxy's standalone
listener down only when one exists and clears it afterwards; the state is
the presence of that resource, plus a counter of how many times the
resource has actually been released. -/
structure ProxyCloseState where
  serverOpen : Bool
  releaseCount : Nat
  deriving DecidableEq

/-- One call of the engine's `close()`: release the underlying resource
if it is still held, otherwise do nothing.  The function is total — the
source has no throwing path. -/
def engineClose (s : ProxyCloseState) : ProxyCloseState :=
  if s.serverOpen then { serverOpen := false, releaseCount := s.releaseCount + 1 }
  else s

/-- The proxy created by `createProxyEngine` never calls `listen()`, so its
`http-proxy` object starts with no standalone listener to release. -/
def createProxyEngineState : ProxyCloseState :=
  { serverOpen := false, releaseCount := 0 }

/-! Section: ACME challenge responder (src/certs.ts `handleAcmeChallenge`). -/

/-- The path recognized by the challenge responder. -/
def challengeRoot : String := "/.well-known/acme-challenge/"

/-- Function `handleAcmeChallenge` from src/certs.ts, with the module-level
`challengeTokens` map passed explicitly:
`if (!url.startsWith(prefix)) return null;` then
`return challengeTokens.get(url.slice(prefix.length)) ?? null;`. -/
def handleAcmeChallenge (tokens : List (String × String)) (url : String) :
    Option String :=
  if listStartsWith url.data challengeRoot.data then
    jsGet tokens ⟨url.data.drop challengeRoot.data.length⟩
  else none

/-! Section: plaintext listener request handler (src/server.ts
`httpRequestHandler`) -/

/-- What `httpRequestHandler` in src/server.ts does with a request:
serve an ACME challenge body with status 200, reject on the IP-allow or
auth middleware, hand the request to `proxyEngine.handleRequest`, or
issue the 301 redirect to HTTPS. -/
inductive ServerAction where
  | acme (body : String)
  | ipReject
  | authReject
  | proxyRequest
  | redirect (location : String)
  deriving DecidableEq

/-- The redirect URL built by `httpRequestHandler`:
`https://` + host with any `:port` stripped + `:httpsPort` when not 443 +
`req.url ?? "/"` (with `req.headers.host ?? ""` for a missing host). -/
def redirectUrl (host : Option String) (httpsPort : Nat) (url : Option String) :
    String :=
  "https://" ++ (⟨stripPort (host.getD "").data⟩ : String)
    ++ (if httpsPort != 443 then ":" ++ toString httpsPort else "")
    ++ url.getD "/"

/-- Function `httpRequestHandler` from src/server.ts.  `ipAllowPass` and `authPass`
abstract the outcomes of `checkIpAllow` and `checkAuth` for this request.
The ACME branch runs first: it fires when `req.url` is present and
`handleAcmeChallenge(req.url)` is truthy — in JavaScript a `string | null`
is truthy exactly when it is a non-empty string.  Only when it does not
fire does the handler go on to proxy (no-TLS mode, after the IP-allow and
auth checks) or to the HTTP→HTTPS redirect. -/
def httpRequestHandler (noSsl : Bool) (httpsPort : Nat)
    (tokens : List (String × String)) (ipAllowPass authPass : Bool)
    (url host : Option String) : ServerAction :=
  let challengeResponse : Option String :=
    match url with
    | some u => handleAcmeChallenge tokens u
    | none => none
  if jsTruthyStr challengeResponse then .acme (challengeResponse.getD "")
  else if noSsl then
    if !ipAllowPass then .ipReject
    else if !authPass then .authReject
    else .proxyRequest
  else .redirect (redirectUrl host httpsPort url)

/-! Section: certificate manager (src/certs.ts). -/

/-- Structure `CertMeta` from src/certs.ts; the ISO-8601 timestamps are modelled by
their millisecond epoch values (`Date.getTime()` / `Date.now()`). -/
structure CertMeta where
  issuedAt : Int
  expiresAt : Int
  domains : List String
  deriving DecidableEq

/-- One day in milliseconds (`1000 * 60 * 60 * 24`). -/
def dayMs : Int := 86400000

/-- Durable certificate storage: per hostname the parsed metadata record
(`none` for a missing or unparsable file, both of which make
`isCertValid` return `false` through its `catch`), and the key,
certificate and chain files. -/
structure DiskState where
  metas : List (String × CertMeta)
  keys : List (String × String)
  certs : List (String × String)
  chains : List (String × String)
  deriving DecidableEq

/-- The environment of `getCertificate`: the clock, the outcome the ACME
client (`client.auto` inside `obtainCert`) would produce for a hostname
and staging flag — a key/certificate pair or a failure — and the
key/certificate pair the `openssl` invocation inside `generateSelfSigned`
produces for a hostname and a validity in days. -/
structure CertEnv where
  now : Int
  acme : String → Bool → Except String (String × String)
  selfSigner : String → Nat → String × String

/-- Function `isCertValid` from src/certs.ts: require a readable metadata record
whose `expiresAt` leaves strictly more than 30 days remaining.  The
source computes `(expires.getTime() - Date.now()) / 86400000 > 30` on
exact integer millisecond values, which is equivalent to the integer
comparison used here. -/
def isCertValid (d : DiskState) (now : Int) (h : String) : Bool :=
  match jsGet d.metas h with
  | none => false
  | some m => decide (m.expiresAt - now > 30 * dayMs)

/-- Function `loadCertFromDisk` from src/certs.ts: read the key, certificate and
chain files, failing (a rejected `readFile`) when any is missing. -/
def loadCertFromDisk (d : DiskState) (h : String) :
    Except String (String × String × String) :=
  match jsGet d.keys h, jsGet d.certs h, jsGet d.chains h with
  | some k, some c, some ch => .ok (k, c, ch)
  | _, _, _ => .error "ENOENT"

/-- The persistence step of `obtainCert`: write the key file, the
certificate file and the chain file (the source writes `certStr` to both
the certificate and the chain file), and the metadata record with
`issuedAt = now`, `expiresAt = now + 90 days`, `domains = [hostname]`. -/
def persistAcme (d : DiskState) (now : Int) (h : String) (k c : String) :
    DiskState :=
  { metas := jsSet d.metas h ⟨now, now + 90 * dayMs, [h]⟩,
    keys := jsSet d.keys h k,
    certs := jsSet d.certs h c,
    chains := jsSet d.chains h c }

/-- Function `obtainCert` from src/certs.ts: run the ACME order; on success persist
the material and return `\x7b key, cert, chain: cert \x7d`; on failure the
error propagates to `getCertificate`'s `catch`. -/
def obtainCert (env : CertEnv) (d : DiskState) (h : String) (staging : Bool) :
    Except String ((String × String × String) × DiskState) :=
  match env.acme h staging with
  | .error e => .error e
  | .ok (k, c) => .ok ((k, c, c), persistAcme d env.now h k c)

/-- The persistence step of `generateSelfSigned`: `openssl` writes the key
and certificate files with `-days 365`, the chain file is written with the
certificate bytes, and the metadata record gets
`expiresAt = now + 365 days`, `domains = [hostname]`. -/
def persistSelfSigned (d : DiskState) (now : Int) (h : String) (k c : String) :
    DiskState :=
  { metas := jsSet d.metas h ⟨now, now + 365 * dayMs, [h]⟩,
    keys := jsSet d.keys h k,
    certs := jsSet d.certs h c,
    chains := jsSet d.chains h c }

/-- Function `generateSelfSigned` from src/certs.ts: invoke the local generator for
a certificate valid 365 days, persist it, and return
`\x7b key, cert, chain: cert \x7d`. -/
def generateSelfSigned (env : CertEnv) (d : DiskState) (h : String) :
    (String × String × String) × DiskState :=
  let kc := env.selfSigner h 365
  ((kc.1, kc.2, kc.2), persistSelfSigned d env.now h kc.1 kc.2)

/-- Structure `CertResult` from src/certs.ts. -/
structure CertResult where
  key : String
  cert : String
  chain : String
  selfSigned : Bool
  deriving DecidableEq

/-- Observable acquisition events of one `getCertificate` call, used to
state that a code path performs (or performs no) ACME issuance. -/
inductive CertEvent where
  | acmeAttempt (hostname : String)
  | selfSignedFallback (hostname : String)
  deriving DecidableEq

/-- Function `getCertificate` from src/certs.ts: unless `forceRenew`, a still-valid
durable record short-circuits to the on-disk material with
`selfSigned = false`; otherwise try ACME and on any failure fall back to
`generateSelfSigned`, returning `selfSigned = true`.  The result carries
the updated durable storage and the list of acquisition events. -/
def getCertificate (env : CertEnv) (d : DiskState) (h : String)
    (staging forceRenew : Bool) :
    Except String (CertResult × DiskState × List CertEvent) :=
  if !forceRenew && isCertValid d env.now h then
    match loadCertFromDisk d h with
    | .error e => .error e
    | .ok (k, c, ch) => .ok (⟨k, c, ch, false⟩, d, [])
  else
    match obtainCert env d h staging with
    | .ok ((k, c, ch), d') => .ok (⟨k, c, ch, false⟩, d', [.acmeAttempt h])
    | .error _ =>
      let r := generateSelfSigned env d h
      .ok (⟨r.1.1, r.1.2.1, r.1.2.2, true⟩, r.2,
        [.acmeAttempt h, .selfSignedFallback h])

/-! Section: provisioning dedup (src/server.ts `getOrProvisionCert`).

`startServer` keeps `certCache : Map<string, CertResult>` and
`certPending : Map<string, Promise<CertResult>>`.  `getOrProvisionCert`
runs synchronously up to its first suspension point: a cache hit returns
the cached value, a pending hit returns the stored in-flight promise, and
otherwise it starts one underlying `getCertificate` call, stores the new
promise under the hostname, and returns it.  When that promise settles,
its continuation (again one uninterrupted synchronous step) caches the
value on success and deletes the pending entry, before the settled value
reaches any awaiter.  Promises are named by the identifiers under which
they were started; certificate values are abstract. -/

/-- The dedup state owned by `startServer`: the settled-value cache, the
pending map holding promise identifiers, the next fresh identifier, and
the log of underlying `getCertificate` acquisitions started so far. -/
structure ProvisionState where
  cache : List (String × Nat)
  pending : List (String × Nat)
  nextId : Nat
  started : List (String × Nat)
  deriving DecidableEq

/-- What a call of `getOrProvisionCert` hands back: an already-settled
cached value, or the promise (by identifier) the caller will await. -/
inductive ProvisionOutcome where
  | cachedValue (v : Nat)
  | awaiting (id : Nat)
  deriving DecidableEq

/-- The synchronous part of `getOrProvisionCert`: check the cache, then
the pending map, and only then start a new acquisition and register its
promise — the check and the insert happen in one uninterrupted step. -/
def getOrProvisionCert (s : ProvisionState) (h : String) :
    ProvisionState × ProvisionOutcome :=
  match jsGet s.cache h with
  | some v => (s, .cachedValue v)
  | none =>
    match jsGet s.pending h with
    | some id => (s, .awaiting id)
    | none =>
      ({ cache := s.cache,
         pending := jsSet s.pending h s.nextId,
         nextId := s.nextId + 1,
         started := s.started ++ [(h, s.nextId)] }, .awaiting s.nextId)

/-- Settlement of the in-flight promise for `h`: on success (`some v`) the
`.then` continuation caches the value and deletes the pending entry; on
failure the `.catch` continuation only deletes the pending entry.  Either
way the deletion happens before the settled value propagates. -/
def settleProvision (s : ProvisionState) (h : String) (outcome : Option Nat) :
    ProvisionState :=
  match outcome with
  | some v => { s with cache := jsSet s.cache h v, pending := jsDelete s.pending h }
  | none => { s with pending := jsDelete s.pending h }

/-- Iterate `n` consecutive `getOrProvisionCert` calls for the same hostname with
no settlement in between (the concurrent-callers scenario: on the
single-threaded event loop, concurrent calls are consecutive synchronous
sections). -/
def provisionCalls (s : ProvisionState) (h : String) : Nat → ProvisionState
  | 0 => s
  | n + 1 => provisionCalls (getOrProvisionCert s h).1 h n

/-- How many entries an association list holds for a key. -/
def keyCount {α : Type} (m : List (String × α)) (k : String) : Nat :=
  (m.filter (fun p => decide (p.1 = k))).length

/-! Section: startup sequencing (src/server.ts `startServer`). -/

/-- Function `isValidPort` from src/utils.ts. -/
def isValidPort (p : Nat) : Bool := 1 ≤ p && p ≤ 65535

/-- Function `makeHostname` from src/utils.ts. -/
def makeHostname (pre : String) (dashedIp : String) : String :=
  pre ++ "-" ++ dashedIp ++ ".sslip.io"

/-- The `--auth` format check in `startServer`:
`const [user, pass] = auth.split(":")` followed by `if (!user || !pass)
throw` — both destructured parts must exist and be non-empty. -/
def authFormatOk : Option String → Bool
  | none => true
  | some a =>
    match a.data.splitOn ':' with
    | u :: p :: _ => !u.isEmpty && !p.isEmpty
    | _ => false

/-- The options of `startServer` that govern its startup sequencing
(src/server.ts `ServerOptions`, with the source's defaults). -/
structure StartOptions where
  ports : List Nat := []
  name : Option String := none
  noSsl : Bool := false
  httpPort : Nat := 80
  httpsPort : Nat := 443
  auth : Option String := none

/-- The environment `startServer` runs against: public-IP detection (its
dashed form, or a failure), port-availability probes, whether each
`listen` call succeeds, and whether each certificate acquisition promise
fulfills. -/
structure StartEnv where
  detectIp : Except String String
  portFree : Nat → Bool
  httpBindOk : Bool
  httpsBindOk : Bool
  acquisitionOk : String → Bool

/-- Externally observable startup events of `startServer`. -/
inductive StartEvent where
  | httpBound (port : Nat)
  | certAcquisition (hostname : String)
  | httpsBound (port : Nat)
  deriving DecidableEq

/-- The routes `startServer` generates for its explicit ports: hostname
`makeHostname(prefix, dashedIp)` where the prefix is the custom name when
one is set (truthy) with a single port, else the port number. -/
def buildRoutes (o : StartOptions) (dashedIp : String) : List ProxyRoute :=
  o.ports.map fun port =>
    let useName := jsTruthyStr o.name && o.ports.length == 1
    let pre := if useName then o.name.getD "" else toString port
    { hostname := makeHostname pre dashedIp,
      targetPort := port,
      name := if useName then o.name else none }

/-- The eager-provisioning loop of `startServer`
(`for (const route of routes) await getOrProvisionCert(route.hostname)`):
each iteration performs one certificate acquisition; a rejected
acquisition aborts startup after its event. -/
def certLoop (env : StartEnv) : List ProxyRoute → List StartEvent × Option String
  | [] => ([], none)
  | r :: rest =>
    if env.acquisitionOk r.hostname then
      let t := certLoop env rest
      (.certAcquisition r.hostname :: t.1, t.2)
    else ([.certAcquisition r.hostname], some "certificate acquisition failed")

/-- Everything `startServer` (src/server.ts) runs before its first
certificate acquisition, in source order — each step rejects startup on
failure: validate the ports, reject `--name` with several ports, detect
the public IP, check HTTPS- then HTTP-port availability, validate
`--auth`, and bind the plaintext HTTP listener.  On success it yields the
dashed public IP the later stages use. -/
def startPreflight (env : StartEnv) (o : StartOptions) : Except String String :=
  if o.ports.any (fun p => !isValidPort p) then .error "Invalid port number"
  else if jsTruthyStr o.name && o.ports.length > 1 then
    .error "--name can only be used with a single port"
  else
    match env.detectIp with
    | .error e => .error e
    | .ok dashedIp =>
      if !o.noSsl && !env.portFree o.httpsPort then
        .error "https port already in use"
      else if !env.portFree o.httpPort then .error "http port already in use"
      else if !authFormatOk o.auth then .error "--auth must be user:pass"
      else if !env.httpBindOk then .error "http listen failed"
      else .ok dashedIp

/-- What `startServer` runs after the plaintext listener is bound, unless
`noSsl`: the eager certificate loop over the configured routes, then the
default-certificate acquisition for `porterman-{dashedIp}.sslip.io` when
no route filled the cache, then the TLS listener bind.  Returns the
emitted events (acquisitions and the HTTPS bind) and the error the stage
rejects with, if any. -/
def postBindRun (env : StartEnv) (o : StartOptions) (dashedIp : String) :
    List StartEvent × Option String :=
  if o.noSsl then ([], none)
  else
    let routes := buildRoutes o dashedIp
    let loop := certLoop env routes
    match loop.2 with
    | some e => (loop.1, some e)
    | none =>
      let defaultHostname := makeHostname "porterman" dashedIp
      let defaultTrace :=
        if routes.isEmpty then [StartEvent.certAcquisition defaultHostname]
        else []
      if routes.isEmpty && !env.acquisitionOk defaultHostname then
        (loop.1 ++ defaultTrace, some "default certificate acquisition failed")
      else if !env.httpsBindOk then
        (loop.1 ++ defaultTrace, some "https listen failed")
      else
        (loop.1 ++ defaultTrace ++ [StartEvent.httpsBound o.httpsPort], none)

/-- The startup control flow of `startServer` (src/server.ts) as the trace
of observable events paired with the error it rejects with, if any: the
preflight checks emit nothing and end with the plaintext listener's bind;
every certificate acquisition and the TLS bind happen afterwards. -/
def startServerRun (env : StartEnv) (o : StartOptions) :
    List StartEvent × Option String :=
  match startPreflight env o with
  | .error e => ([], some e)
  | .ok dashedIp =>
    (StartEvent.httpBound o.httpPort :: (postBindRun env o dashedIp).1,
     (postBindRun env o dashedIp).2)

/-- Whether an event is the plaintext listener's successful bind. -/
def isHttpBoundEvent : StartEvent → Bool
  | .httpBound _ => true
  | _ => false

/-- Whether an event is a certificate acquisition. -/
def isCertEvent : StartEvent → Bool
  | .certAcquisition _ => true
  | _ => false

/-! Section: helper lemmas. -/

theorem takeWhile_idem (p : Char → Bool) (l : List Char) :
    (l.takeWhile p).takeWhile p = l.takeWhile p := by
  induction l with
  | nil => rfl
  | cons a t ih =>
    by_cases h : p a = true
    · simp [List.takeWhile_cons, h, ih]
    · simp [List.takeWhile_cons, h]

theorem stripPort_idem (l : List Char) : stripPort (stripPort l) = stripPort l :=
  takeWhile_idem _ l

theorem parsePortChars_stripPort (l : List Char) :
    parsePortChars (stripPort l) = parsePortChars l := by
  unfold parsePortChars
  rw [stripPort_idem]

theorem find?_isSome_eq_any {α : Type} (p : α → Bool) (l : List α) :
    (l.find? p).isSome = l.any p := by
  induction l with
  | nil => rfl
  | cons a t ih =>
    by_cases h : p a = true
    · simp [List.find?_cons, List.any_cons, h]
    · simp [List.find?_cons, List.any_cons, h, ih]

theorem resolve_eq_spec_order (o : ProxyOptions) (host : String) :
    resolveTargetPort o host = specResolutionOrder o host := by
  unfold resolveTargetPort specResolutionOrder
  have hparse : parsePortFromHost (⟨stripPort host.data⟩ : String)
      = parsePortFromHost host := parsePortChars_stripPort host.data
  simp only [hparse]
  cases jsGet (buildRouteMap o.routes) ⟨stripPort host.data⟩ with
  | some p => simp [Option.orElse]
  | none =>
    cases o.nameMap with
    | none =>
      cases hp : parsePortFromHost host with
      | none => simp [Option.orElse]
      | some port =>
        by_cases hd : o.dynamic
        · simp [hd, Option.orElse]
        · cases hf : o.routes.find? (fun r => r.targetPort == port) with
          | some r =>
            have hany : (o.routes.any fun r => r.targetPort == port) = true := by
              rw [← find?_isSome_eq_any, hf]; rfl
            simp [hd, hf, hany, Option.orElse]
          | none =>
            have hany : (o.routes.any fun r => r.targetPort == port) = false := by
              rw [← find?_isSome_eq_any, hf]; rfl
            simp [hd, hf, hany, Option.orElse]
    | some nm =>
      simp only [Option.orElse]
      cases jsGet nm ⟨beforeDash (stripPort host.data)⟩ with
      | some p => simp [Option.orElse]
      | none =>
        cases hp : parsePortFromHost host with
        | none => simp [Option.orElse]
        | some port =>
          by_cases hd : o.dynamic
          · simp [hd, Option.orElse]
          · cases hf : o.routes.find? (fun r => r.targetPort == port) with
            | some r =>
              have hany : (o.routes.any fun r => r.targetPort == port) = true := by
                rw [← find?_isSome_eq_any, hf]; rfl
              simp [hd, hf, hany, Option.orElse]
            | none =>
              have hany : (o.routes.any fun r => r.targetPort == port) = false := by
                rw [← find?_isSome_eq_any, hf]; rfl
              simp [hd, hf, hany, Option.orElse]

/-! Section: claim theorems. -/

/-- C1: the route resolver implements the first-match-wins order of the
specification — strip any `:port` suffix, exact static-route match, then
the name-alias map keyed by the substring before the first `'-'`, then
the parsed leading numeric token (unconditional in dynamic mode, and in
static mode only when the value equals some configured route's
`targetPort`) — and the spec's concrete instances hold: in dynamic mode
`3000-85-100-50-25.sslip.io` resolves to 3000 and `unknown.example.com`
to none; in static mode with route `\x7b3000\x7d`,
`8080-1-2-3-4.sslip.io` resolves to none and `3000-1-2-3-4.sslip.io` to
3000. -/
theorem claim_C1_resolution_order :
    (∀ (o : ProxyOptions) (host : String),
        resolveTargetPort o host = specResolutionOrder o host)
    ∧ resolveTargetPort { dynamic := true } "3000-85-100-50-25.sslip.io"
        = some 3000
    ∧ resolveTargetPort { dynamic := true } "unknown.example.com" = none
    ∧ resolveTargetPort
        { routes := [{ hostname := "3000-1-2-3-4.sslip.io", targetPort := 3000 }] }
        "8080-1-2-3-4.sslip.io" = none
    ∧ resolveTargetPort
        { routes := [{ hostname := "3000-1-2-3-4.sslip.io", targetPort := 3000 }] }
        "3000-1-2-3-4.sslip.io" = some 3000 :=
  ⟨resolve_eq_spec_order, by decide, by decide, by decide, by decide⟩

/-- C10: in dynamic mode the resolver accepts whatever
`parsePortFromHost` extracts, with no further validation — a leading
word-token with trailing non-digits such as `3000abc-1-2-3-4.sslip.io`
resolves to its numeric leading run 3000, and the out-of-range
`99999-1-2-3-4.sslip.io` resolves to 99999. -/
theorem claim_C10_dynamic_accepts_unvalidated :
    (∀ host : String,
        resolveTargetPort { dynamic := true } host = parsePortFromHost host)
    ∧ resolveTargetPort { dynamic := true } "3000abc-1-2-3-4.sslip.io"
        = some 3000
    ∧ resolveTargetPort { dynamic := true } "99999-1-2-3-4.sslip.io"
        = some 99999 := by
  refine ⟨fun host => ?_, by decide, by decide⟩
  unfold resolveTargetPort
  cases parsePortFromHost host <;> simp [buildRouteMap, jsGet]

/-- C9: the proxy engine's `close()` is idempotent — a second call (from
any state) changes nothing and releases no resource a second time, and
the engine as created (which never opened a standalone listener) is left
exactly as it started.  The operation is a total function: it has no
raising path. -/
theorem claim_C9_close_idempotent :
    (∀ s : ProxyCloseState, engineClose (engineClose s) = engineClose s)
    ∧ (∀ s : ProxyCloseState,
        (engineClose (engineClose s)).releaseCount ≤ s.releaseCount + 1)
    ∧ engineClose (engineClose createProxyEngineState) = createProxyEngineState := by
  refine ⟨fun s => ?_, fun s => ?_, by decide⟩
  · by_cases h : s.serverOpen <;> simp [engineClose, h]
  · by_cases h : s.serverOpen <;> simp [engineClose, h]

theorem listStartsWith_append (a b : List Char) :
    listStartsWith (a ++ b) a = true := by
  induction a with
  | nil => cases b <;> rfl
  | cons x xs ih => simp [listStartsWith, ih]

theorem string_ne_empty_data {s : String} (h : s ≠ "") : s.data.isEmpty = false := by
  cases s with
  | mk l =>
    cases l with
    | nil => exact absurd rfl h
    | cons c cs => rfl

/-- C6: `handleAcmeChallenge` recognizes exactly the prefix
`/.well-known/acme-challenge/` — any other path yields `none` with the
token map never consulted (the result is the same for every token map) —
and for a path made of the prefix plus a token it returns exactly the
stored key-authorization string when the token is registered and `none`
when it is unknown. -/
theorem claim_C6_challenge_responder :
    (∀ (tokens tokens' : List (String × String)) (url : String),
        listStartsWith url.data challengeRoot.data = false →
          handleAcmeChallenge tokens url = none
          ∧ handleAcmeChallenge tokens url = handleAcmeChallenge tokens' url)
    ∧ (∀ (tokens : List (String × String)) (tok auth : String),
        jsGet tokens tok = some auth →
          handleAcmeChallenge tokens (challengeRoot ++ tok) = some auth)
    ∧ (∀ (tokens : List (String × String)) (tok : String),
        jsGet tokens tok = none →
          handleAcmeChallenge tokens (challengeRoot ++ tok) = none) := by
  have hform : ∀ (tokens : List (String × String)) (tok : String),
      handleAcmeChallenge tokens (challengeRoot ++ tok) = jsGet tokens tok := by
    intro tokens tok
    unfold handleAcmeChallenge
    rw [String.data_append, listStartsWith_append, List.drop_left]
    rfl
  refine ⟨?_, ?_, ?_⟩
  · intro tokens tokens' url h
    constructor <;> simp [handleAcmeChallenge, h]
  · intro tokens tok auth h
    rw [hform, h]
  · intro tokens tok h
    rw [hform, h]

theorem claim_C6_challenge_responder_witness :
    handleAcmeChallenge [("tokA", "keyAuthA")] "/" = none
    ∧ handleAcmeChallenge [("tokA", "keyAuthA")] (challengeRoot ++ "tokA")
        = some "keyAuthA"
    ∧ handleAcmeChallenge [("tokA", "keyAuthA")]
        (challengeRoot ++ "unknown-token") = none :=
  ⟨(claim_C6_challenge_responder.1 [("tokA", "keyAuthA")] [] "/" (by decide)).1,
   claim_C6_challenge_responder.2.1 [("tokA", "keyAuthA")] "tokA" "keyAuthA"
     (by decide),
   claim_C6_challenge_responder.2.2 [("tokA", "keyAuthA")] "unknown-token"
     (by decide)⟩

/-- C5 (amended): on the plaintext listener the ACME responder runs before
everything else — for every request whose URL names a registered
challenge token whose stored key authorization is a *non-empty* string,
the handler responds 200 text/plain with that key authorization and
neither redirects, nor applies the IP-allow or auth checks, nor proxies,
in both TLS and no-TLS modes.  (The non-emptiness is forced by the
source's truthiness test `if (challengeResponse)`, under which an empty
stored string falls through to normal handling.) -/
theorem claim_C5_acme_first (noSsl : Bool) (httpsPort : Nat)
    (tokens : List (String × String)) (ipAllowPass authPass : Bool)
    (u : String) (host : Option String) (auth : String)
    (hreg : handleAcmeChallenge tokens u = some auth) (hne : auth ≠ "") :
    httpRequestHandler noSsl httpsPort tokens ipAllowPass authPass
      (some u) host = .acme auth := by
  unfold httpRequestHandler
  simp [hreg, jsTruthyStr, string_ne_empty_data hne]

theorem claim_C5_acme_first_witness :
    httpRequestHandler true 443 [("tokB", "authB")] false false
      (some (challengeRoot ++ "tokB")) none = .acme "authB" :=
  claim_C5_acme_first true 443 [("tokB", "authB")] false false
    (challengeRoot ++ "tokB") none "authB" (by decide) (by decide)

/-- C5 counterexample: with the token `tok` registered with the empty
key-authorization string, a plaintext request for
`/.well-known/acme-challenge/tok` names a registered token, yet the
handler does not respond 200 with the stored string — the empty string is
falsy under `if (challengeResponse)`, so the handler issues the
HTTP→HTTPS redirect instead. -/
theorem claim_C5_acme_first_counterexample :
    (handleAcmeChallenge [("tok", "")] "/.well-known/acme-challenge/tok").isSome
      = true
    ∧ httpRequestHandler false 443 [("tok", "")] true true
        (some "/.well-known/acme-challenge/tok") (some "example.com")
        = .redirect "https://example.com/.well-known/acme-challenge/tok"
    ∧ httpRequestHandler false 443 [("tok", "")] true true
        (some "/.well-known/acme-challenge/tok") (some "example.com")
        ≠ .acme "" := by
  refine ⟨by decide, by decide, by decide⟩

/-- C8 (amended): `handleRequest` responds 400 without forwarding when the
`Host` header is missing — or empty, which the source's truthiness test
`if (!host)` treats the same way — responds 404 without forwarding when a
present, non-empty host resolves to no target port, and forwards only
when the host is truthy and resolves. -/
theorem claim_C8_host_errors (o : ProxyOptions) :
    handleRequest o none = .badRequest
    ∧ (∀ host : String, host ≠ "" → resolveTargetPort o host = none →
        handleRequest o (some host) = .notFound)
    ∧ (∀ (host : Option String) (p : Nat),
        handleRequest o host = .forwardTo p →
          jsTruthyStr host = true
          ∧ resolveTargetPort o (host.getD "") = some p) := by
  refine ⟨rfl, ?_, ?_⟩
  · intro host hne hres
    unfold handleRequest
    simp [jsTruthyStr, string_ne_empty_data hne, hres]
  · intro host p h
    unfold handleRequest at h
    by_cases ht : jsTruthyStr host = true
    · refine ⟨ht, ?_⟩
      rw [ht] at h
      simp only [Bool.not_true, Bool.false_eq_true, if_false] at h
      cases hres : resolveTargetPort o (host.getD "") with
      | none => rw [hres] at h; exact absurd h (by simp)
      | some q => rw [hres] at h; cases h; rfl
    · rw [Bool.not_eq_true] at ht
      rw [ht] at h
      exact absurd h (by simp)

theorem claim_C8_host_errors_witness :
    handleRequest ({} : ProxyOptions) none = .badRequest
    ∧ handleRequest ({} : ProxyOptions) (some "unknown.example.com")
        = .notFound :=
  ⟨(claim_C8_host_errors {}).1,
   (claim_C8_host_errors {}).2.1 "unknown.example.com" (by decide) (by decide)⟩

/-- C8 counterexample: a request whose `Host` header is present but empty
has a host that resolves to none, yet `handleRequest` responds 400, not
404 — the truthiness test `if (!host)` lumps the empty header with the
missing one. -/
theorem claim_C8_host_errors_counterexample :
    resolveTargetPort ({} : ProxyOptions) "" = none
    ∧ handleRequest ({} : ProxyOptions) (some "") = .badRequest
    ∧ handleRequest ({} : ProxyOptions) (some "") ≠ .notFound := by
  refine ⟨by decide, by decide, by decide⟩

theorem jsGet_append_right {α : Type} {m : List (String × α)} {k : String}
    (hm : m.any (fun p => decide (p.1 = k)) = false) (l : List (String × α)) :
    jsGet (m ++ l) k = jsGet l k := by
  induction m with
  | nil => rfl
  | cons p t ih =>
    simp only [List.any_cons, Bool.or_eq_false_iff, decide_eq_false_iff_not] at hm
    simp [jsGet, hm.1, ih hm.2]

theorem jsGet_map_set {α : Type} {m : List (String × α)} {k : String} (v : α)
    (hm : m.any (fun p => decide (p.1 = k)) = true) :
    jsGet (m.map (fun p => if p.1 = k then (k, v) else p)) k = some v := by
  induction m with
  | nil => simp at hm
  | cons p t ih =>
    by_cases hp : p.1 = k
    · simp [jsGet, hp]
    · simp only [List.any_cons, decide_eq_true_eq, hp, decide_False,
        Bool.false_or] at hm
      simp [jsGet, hp, ih hm]

theorem jsGet_jsSet_self {α : Type} (m : List (String × α)) (k : String) (v : α) :
    jsGet (jsSet m k v) k = some v := by
  unfold jsSet
  by_cases hm : m.any (fun p => decide (p.1 = k)) = true
  · simp only [hm, if_true]
    exact jsGet_map_set v hm
  · rw [Bool.not_eq_true] at hm
    simp only [hm, Bool.false_eq_true, if_false]
    rw [jsGet_append_right hm]
    simp [jsGet]

theorem jsSet_of_absent {α : Type} {m : List (String × α)} {k : String} (v : α)
    (hm : jsGet m k = none) : jsSet m k v = m ++ [(k, v)] := by
  unfold jsSet
  have hany : m.any (fun p => decide (p.1 = k)) = false := by
    induction m with
    | nil => rfl
    | cons p t ih =>
      unfold jsGet at hm
      by_cases hp : p.1 = k
      · simp [hp] at hm
      · simp only [hp, if_false] at hm
        simp [List.any_cons, hp, ih hm]
  simp [hany]

theorem keyCount_nil_of_get_none {α : Type} {m : List (String × α)} {k : String}
    (hm : jsGet m k = none) : keyCount m k = 0 := by
  unfold keyCount
  induction m with
  | nil => rfl
  | cons p t ih =>
    unfold jsGet at hm
    by_cases hp : p.1 = k
    · simp [hp] at hm
    · simp only [hp, if_false] at hm
      simp [List.filter_cons, hp, ih hm]

theorem keyCount_append_single {α : Type} (m : List (String × α)) (k : String)
    (v : α) : keyCount (m ++ [(k, v)]) k = keyCount m k + 1 := by
  unfold keyCount
  simp [List.filter_append]

theorem filter_after_delete {α : Type} (q : α → Bool) (l : List α) :
    (l.filter fun a => !(q a)).filter q = [] := by
  induction l with
  | nil => rfl
  | cons a t ih =>
    cases hq : q a with
    | true => simp [List.filter_cons, hq, ih]
    | false => simp [List.filter_cons, hq, ih]

theorem keyCount_jsDelete {α : Type} (m : List (String × α)) (k : String) :
    keyCount (jsDelete m k) k = 0 := by
  have h := filter_after_delete (fun p : String × α => decide (p.1 = k)) m
  unfold keyCount jsDelete
  rw [h]
  rfl

theorem provisionCalls_fixed {s : ProvisionState} {h : String}
    (hfix : getOrProvisionCert s h = (s, (getOrProvisionCert s h).2)) :
    ∀ n, provisionCalls s h n = s := by
  intro n
  induction n with
  | zero => rfl
  | succ n ih =>
    unfold provisionCalls
    rw [congrArg Prod.fst hfix]
    exact ih

/-- C2: certificate provisioning is memoized per hostname.  Starting from
a state where the hostname is neither cached nor pending: the first call
starts exactly one underlying `getCertificate` acquisition and registers
one pending entry; any further call while that entry is outstanding
changes nothing and awaits the same in-flight promise — so `n + 1`
consecutive calls leave the log of started acquisitions grown by exactly
the one entry; settlement removes the pending entry exactly once (its
count drops from one to zero, on success and on failure alike), and on
success the settled value is what every later caller receives. -/
theorem claim_C2_provisioning_dedup (s : ProvisionState) (h : String)
    (hc : jsGet s.cache h = none) (hp : jsGet s.pending h = none) :
    (getOrProvisionCert s h).2 = .awaiting s.nextId
    ∧ (getOrProvisionCert s h).1.started = s.started ++ [(h, s.nextId)]
    ∧ keyCount (getOrProvisionCert s h).1.pending h = 1
    ∧ getOrProvisionCert (getOrProvisionCert s h).1 h
        = ((getOrProvisionCert s h).1, .awaiting s.nextId)
    ∧ (∀ n : Nat, provisionCalls s h (n + 1) = (getOrProvisionCert s h).1)
    ∧ (∀ n : Nat, (provisionCalls s h (n + 1)).started
        = s.started ++ [(h, s.nextId)])
    ∧ (∀ v : Nat,
        keyCount (settleProvision (getOrProvisionCert s h).1 h (some v)).pending h
            = 0
        ∧ jsGet (settleProvision (getOrProvisionCert s h).1 h (some v)).cache h
            = some v
        ∧ (getOrProvisionCert
            (settleProvision (getOrProvisionCert s h).1 h (some v)) h).2
            = .cachedValue v)
    ∧ keyCount (settleProvision (getOrProvisionCert s h).1 h none).pending h
        = 0 := by
  have hcall : getOrProvisionCert s h
      = ({ cache := s.cache, pending := jsSet s.pending h s.nextId,
           nextId := s.nextId + 1,
           started := s.started ++ [(h, s.nextId)] }, .awaiting s.nextId) := by
    unfold getOrProvisionCert
    rw [hc, hp]
  have hpend : jsGet (jsSet s.pending h s.nextId) h = some s.nextId :=
    jsGet_jsSet_self s.pending h s.nextId
  have hsecond : getOrProvisionCert (getOrProvisionCert s h).1 h
      = ((getOrProvisionCert s h).1, .awaiting s.nextId) := by
    rw [hcall]
    unfold getOrProvisionCert
    rw [hc, hpend]
  refine ⟨by rw [hcall], by rw [hcall], ?_, hsecond, ?_, ?_, ?_, ?_⟩
  · rw [hcall, jsSet_of_absent s.nextId hp, keyCount_append_single,
      keyCount_nil_of_get_none hp]
  · intro n
    show provisionCalls (getOrProvisionCert s h).1 h n = (getOrProvisionCert s h).1
    exact provisionCalls_fixed (by rw [hsecond]) n
  · intro n
    show (provisionCalls (getOrProvisionCert s h).1 h n).started
        = s.started ++ [(h, s.nextId)]
    rw [provisionCalls_fixed (by rw [hsecond]) n, hcall]
  · intro v
    refine ⟨?_, ?_, ?_⟩
    · rw [hcall]
      exact keyCount_jsDelete _ h
    · rw [hcall]
      exact jsGet_jsSet_self _ h v
    · rw [hcall]
      unfold settleProvision getOrProvisionCert
      rw [jsGet_jsSet_self _ h v]
  · rw [hcall]
    exact keyCount_jsDelete _ h

theorem claim_C2_provisioning_dedup_witness :
    (getOrProvisionCert ⟨[], [], 0, []⟩ "3000-1-2-3-4.sslip.io").2
        = .awaiting 0
    ∧ (provisionCalls ⟨[], [], 0, []⟩ "3000-1-2-3-4.sslip.io" 10).started
        = [("3000-1-2-3-4.sslip.io", 0)]
    ∧ keyCount (settleProvision
        (getOrProvisionCert ⟨[], [], 0, []⟩ "3000-1-2-3-4.sslip.io").1
        "3000-1-2-3-4.sslip.io" (some 7)).pending "3000-1-2-3-4.sslip.io" = 0 :=
  ⟨(claim_C2_provisioning_dedup ⟨[], [], 0, []⟩ "3000-1-2-3-4.sslip.io"
      (by decide) (by decide)).1,
   (claim_C2_provisioning_dedup ⟨[], [], 0, []⟩ "3000-1-2-3-4.sslip.io"
      (by decide) (by decide)).2.2.2.2.2.1 9,
   ((claim_C2_provisioning_dedup ⟨[], [], 0, []⟩ "3000-1-2-3-4.sslip.io"
      (by decide) (by decide)).2.2.2.2.2.2.1 7).1⟩

/-- C3: whenever the acquisition path is taken (`forceRenew`, or no
still-valid durable record) and ACME issuance fails for any reason,
`getCertificate` does not raise: it returns normally with
`selfSigned = true`, the material the local generator produced with a
365-day validity, and durable storage carrying the key, certificate,
chain and metadata record (`expiresAt = now + 365 days`,
`domains = [hostname]`) written the same way an ACME success writes
them. -/
theorem claim_C3_selfsigned_fallback (env : CertEnv) (d : DiskState)
    (h : String) (staging forceRenew : Bool) (e : String)
    (hacme : env.acme h staging = .error e)
    (hpath : forceRenew = true ∨ isCertValid d env.now h = false) :
    getCertificate env d h staging forceRenew
      = .ok (⟨(env.selfSigner h 365).1, (env.selfSigner h 365).2,
              (env.selfSigner h 365).2, true⟩,
             persistSelfSigned d env.now h (env.selfSigner h 365).1
               (env.selfSigner h 365).2,
             [.acmeAttempt h, .selfSignedFallback h])
    ∧ jsGet (persistSelfSigned d env.now h (env.selfSigner h 365).1
        (env.selfSigner h 365).2).metas h
        = some ⟨env.now, env.now + 365 * dayMs, [h]⟩
    ∧ jsGet (persistSelfSigned d env.now h (env.selfSigner h 365).1
        (env.selfSigner h 365).2).keys h = some (env.selfSigner h 365).1
    ∧ jsGet (persistSelfSigned d env.now h (env.selfSigner h 365).1
        (env.selfSigner h 365).2).certs h = some (env.selfSigner h 365).2
    ∧ jsGet (persistSelfSigned d env.now h (env.selfSigner h 365).1
        (env.selfSigner h 365).2).chains h = some (env.selfSigner h 365).2 := by
  have hcond : (!forceRenew && isCertValid d env.now h) = false := by
    rcases hpath with hf | hv
    · rw [hf]; rfl
    · rw [hv, Bool.and_false]
  refine ⟨?_, jsGet_jsSet_self _ h _, jsGet_jsSet_self _ h _,
    jsGet_jsSet_self _ h _, jsGet_jsSet_self _ h _⟩
  unfold getCertificate
  rw [hcond]
  simp only [Bool.false_eq_true, if_false]
  unfold obtainCert generateSelfSigned
  rw [hacme]

theorem claim_C3_selfsigned_fallback_witness :
    getCertificate
      ⟨0, fun _ _ => .error "ECONNREFUSED", fun _ _ => ("SSKEY", "SSCERT")⟩
      ⟨[], [], [], []⟩ "3000-1-2-3-4.sslip.io" false false
      = .ok (⟨"SSKEY", "SSCERT", "SSCERT", true⟩,
             persistSelfSigned ⟨[], [], [], []⟩ 0 "3000-1-2-3-4.sslip.io"
               "SSKEY" "SSCERT",
             [.acmeAttempt "3000-1-2-3-4.sslip.io",
              .selfSignedFallback "3000-1-2-3-4.sslip.io"]) :=
  (claim_C3_selfsigned_fallback
      ⟨0, fun _ _ => .error "ECONNREFUSED", fun _ _ => ("SSKEY", "SSCERT")⟩
      ⟨[], [], [], []⟩ "3000-1-2-3-4.sslip.io" false false "ECONNREFUSED"
      rfl (Or.inr rfl)).1

/-- C4: with a durable metadata record whose `expiresAt` is more than 30
days past `now` and the key/certificate/chain files on disk,
`getCertificate` without `forceRenew` returns exactly the on-disk bytes
with `selfSigned = false`, leaves durable storage untouched, performs no
acquisition event (no ACME issuance, no self-signed generation) — and a
second call on the state the first one returned yields the identical
material. -/
theorem claim_C4_valid_cache_hit (env : CertEnv) (d : DiskState) (h : String)
    (staging : Bool) (m : CertMeta) (k c ch : String)
    (hm : jsGet d.metas h = some m)
    (hvalid : m.expiresAt - env.now > 30 * dayMs)
    (hk : jsGet d.keys h = some k) (hc : jsGet d.certs h = some c)
    (hch : jsGet d.chains h = some ch) :
    getCertificate env d h staging false = .ok (⟨k, c, ch, false⟩, d, [])
    ∧ (∀ (r : CertResult) (d' : DiskState) (evs : List CertEvent),
        getCertificate env d h staging false = .ok (r, d', evs) →
          getCertificate env d' h staging false = .ok (r, d', evs)) := by
  have hvb : isCertValid d env.now h = true := by
    unfold isCertValid
    rw [hm]
    exact decide_eq_true hvalid
  have hfirst : getCertificate env d h staging false
      = .ok (⟨k, c, ch, false⟩, d, []) := by
    unfold getCertificate
    rw [hvb]
    simp only [Bool.not_false, Bool.true_and, if_true]
    unfold loadCertFromDisk
    rw [hk, hc, hch]
  refine ⟨hfirst, ?_⟩
  intro r d' evs hcall
  rw [hfirst] at hcall
  injection hcall with hpair
  injection hpair with hr hrest
  injection hrest with hd hevs
  rw [← hr, ← hd, ← hevs]
  exact hfirst

theorem claim_C4_valid_cache_hit_witness :
    getCertificate ⟨0, fun _ _ => .error "unused", fun _ _ => ("u", "u")⟩
      ⟨[("3000-1-2-3-4.sslip.io", ⟨0, 90 * dayMs, ["3000-1-2-3-4.sslip.io"]⟩)],
       [("3000-1-2-3-4.sslip.io", "PEMKEY")],
       [("3000-1-2-3-4.sslip.io", "PEMCERT")],
       [("3000-1-2-3-4.sslip.io", "PEMCHAIN")]⟩
      "3000-1-2-3-4.sslip.io" false false
      = .ok (⟨"PEMKEY", "PEMCERT", "PEMCHAIN", false⟩,
             ⟨[("3000-1-2-3-4.sslip.io", ⟨0, 90 * dayMs, ["3000-1-2-3-4.sslip.io"]⟩)],
              [("3000-1-2-3-4.sslip.io", "PEMKEY")],
              [("3000-1-2-3-4.sslip.io", "PEMCERT")],
              [("3000-1-2-3-4.sslip.io", "PEMCHAIN")]⟩, []) :=
  (claim_C4_valid_cache_hit
      ⟨0, fun _ _ => .error "unused", fun _ _ => ("u", "u")⟩
      ⟨[("3000-1-2-3-4.sslip.io", ⟨0, 90 * dayMs, ["3000-1-2-3-4.sslip.io"]⟩)],
       [("3000-1-2-3-4.sslip.io", "PEMKEY")],
       [("3000-1-2-3-4.sslip.io", "PEMCERT")],
       [("3000-1-2-3-4.sslip.io", "PEMCHAIN")]⟩
      "3000-1-2-3-4.sslip.io" false
      ⟨0, 90 * dayMs, ["3000-1-2-3-4.sslip.io"]⟩ "PEMKEY" "PEMCERT" "PEMCHAIN"
      (by decide) (by decide) (by decide) (by decide) (by decide)).1

/-- C7: in every execution of `startServer` — over all options and all
environment behaviors, including failing validations, occupied ports,
failed binds and failed acquisitions — no certificate acquisition event
precedes the plaintext HTTP listener's successful bind: the emitted trace
is either empty or starts with the `httpBound` event, and no acquisition
event occurs before the bind event. -/
theorem claim_C7_http_bound_before_certs (env : StartEnv) (o : StartOptions) :
    ((startServerRun env o).1.takeWhile
        (fun ev => !isHttpBoundEvent ev)).any isCertEvent = false
    ∧ ((startServerRun env o).1 = []
        ∨ ∃ rest, (startServerRun env o).1 = .httpBound o.httpPort :: rest) := by
  have hshape : (startServerRun env o).1 = []
      ∨ ∃ rest, (startServerRun env o).1 = .httpBound o.httpPort :: rest := by
    unfold startServerRun
    cases startPreflight env o with
    | error e => exact Or.inl rfl
    | ok dashedIp => exact Or.inr ⟨_, rfl⟩
  refine ⟨?_, hshape⟩
  rcases hshape with hnil | ⟨rest, hcons⟩
  · rw [hnil]; rfl
  · rw [hcons]
    rfl

end Porterman
